import Mathlib

/-!
# Verification of the flowchart renderer / exporter core

Shallow embedding of the repository's TypeScript sources:
* `services/geminiService.ts` — provider-response validation and the retry loop
  of `generateFlowFromScript`;
* `App.tsx` — `handleAnalyzeScript` and the top-level diagram state;
* the `FlowChart` component — dagre graph construction, label word-wrap,
  export geometry (SVG/PNG/PDF), the per-type style editor state, the
  auto-fit `useEffect`, and the node-drag handler.

Coordinates and sizes are rationals (`ℚ`); machine floats in the source only
ever hold exact small decimals in the code paths verified here.  Stateful
React pieces are embedded as explicit state-passing functions.
-/

/-- A 2-D point in diagram space. -/
structure Point where
  x : ℚ
  y : ℚ
deriving DecidableEq, Repr

/-- Fixed node box width (`const NODE_WIDTH = 150`). -/
def NODE_WIDTH : ℚ := 150

/-- Fixed node box height (`const NODE_HEIGHT = 60`). -/
def NODE_HEIGHT : ℚ := 60

/-! ## Diagram model (`types.ts`) -/

/-- `NodeType` enum from `types.ts`: start, process, decision, end. -/
inductive NodeType where
  | start
  | process
  | decision
  | «end»
deriving DecidableEq, Repr

/-- `NodeData` from `types.ts` (the simulation fields of d3 are unused). -/
structure NodeData where
  id : String
  label : String
  type : NodeType
  description : Option String
deriving DecidableEq, Repr

/-- `EdgeData` from `types.ts`. -/
structure EdgeData where
  source : String
  target : String
  label : Option String
deriving DecidableEq, Repr

/-- `FlowData` from `types.ts`: the Diagram handed to the `FlowChart`. -/
structure FlowData where
  nodes : List NodeData
  edges : List EdgeData
deriving DecidableEq, Repr

/-! ## Per-type node styles (`FlowChart`: `NodeStyle`, `NodeStyles`,
`defaultNodeStyles`, `handleStyleChange`, the reset button) -/

/-- `NodeStyle`: two gradient stops, stroke color, text color, font size. -/
structure NodeStyle where
  color1 : String
  color2 : String
  stroke : String
  textColor : String
  fontSize : Int
deriving DecidableEq, Repr

/-- `NodeStyles`: one `NodeStyle` per node type (no generic default entry). -/
structure NodeStyles where
  start : NodeStyle
  «end» : NodeStyle
  decision : NodeStyle
  process : NodeStyle
deriving DecidableEq, Repr

/-- `defaultNodeStyles` constant from the source. -/
def defaultNodeStyles : NodeStyles :=
  { start := { color1 := "#a3e635", color2 := "#16a34a", stroke := "#15803d",
               textColor := "#ffffff", fontSize := 14 }
    «end» := { color1 := "#f87171", color2 := "#e11d48", stroke := "#be123c",
               textColor := "#ffffff", fontSize := 14 }
    decision := { color1 := "#fbbf24", color2 := "#f97316", stroke := "#ea580c",
                  textColor := "#ffffff", fontSize := 14 }
    process := { color1 := "#38bdf8", color2 := "#2563eb", stroke := "#1d4ed8",
                 textColor := "#ffffff", fontSize := 14 } }

/-- Read the style entry of one node type. -/
def getStyle (s : NodeStyles) : NodeType → NodeStyle
  | .start => s.start
  | .«end» => s.«end»
  | .decision => s.decision
  | .process => s.process

/-- Replace the style entry of one node type (the outer spread of
`handleStyleChange`). -/
def setStyle (s : NodeStyles) : NodeType → NodeStyle → NodeStyles
  | .start, v => { s with start := v }
  | .«end», v => { s with «end» := v }
  | .decision, v => { s with decision := v }
  | .process, v => { s with process := v }

/-- One single-field update, as issued by the `StyleEditor` inputs: the four
color pickers pass the picked color string, the font-size field passes
`parseInt(e.target.value, 10)`. -/
inductive StyleChange where
  | color1 (v : String)
  | color2 (v : String)
  | stroke (v : String)
  | textColor (v : String)
  | fontSize (v : Int)
deriving DecidableEq, Repr

/-- The inner spread of `handleStyleChange`: replace the single field. -/
def applyStyleChange (st : NodeStyle) : StyleChange → NodeStyle
  | .color1 v => { st with color1 := v }
  | .color2 v => { st with color2 := v }
  | .stroke v => { st with stroke := v }
  | .textColor v => { st with textColor := v }
  | .fontSize v => { st with fontSize := v }

/-- `handleStyleChange(nodeType, property, value)`: a fresh `NodeStyles` value
with the single field of the single type replaced.  The source builds it with
non-mutating object spreads, so the embedding as a pure update is exact. -/
def handleStyleChange (prev : NodeStyles) (t : NodeType) (c : StyleChange) : NodeStyles :=
  setStyle prev t (applyStyleChange (getStyle prev t) c)

/-- The reset button: `onReset={() => setCustomNodeStyles(defaultNodeStyles)}` —
the next state is the built-in defaults, whatever the previous state was. -/
def resetStyles (_ : NodeStyles) : NodeStyles := defaultNodeStyles

/-- Apply a sequence of style-editor mutations in order. -/
def applyStyleChanges (s : NodeStyles) (ops : List (NodeType × StyleChange)) : NodeStyles :=
  ops.foldl (fun acc p => handleStyleChange acc p.1 p.2) s

/-- The font-size range the `StyleEditor` number input advertises via its
`min="8" max="24" step="1"` attributes, read on every type's entry. -/
def fontSizeInvariant (s : NodeStyles) : Prop :=
  (8 ≤ s.start.fontSize ∧ s.start.fontSize ≤ 24) ∧
  (8 ≤ s.«end».fontSize ∧ s.«end».fontSize ≤ 24) ∧
  (8 ≤ s.decision.fontSize ∧ s.decision.fontSize ≤ 24) ∧
  (8 ≤ s.process.fontSize ∧ s.process.fontSize ≤ 24)

instance (s : NodeStyles) : Decidable (fontSizeInvariant s) := by
  unfold fontSizeInvariant; infer_instance

/-! ## Export geometry (`createCanvasFromSVG`, `getSVGString`) -/

/-- The bounding box `getBBox()` of the live diagram group. -/
structure BBox where
  x : ℚ
  y : ℚ
  width : ℚ
  height : ℚ
deriving DecidableEq, Repr

/-- The size/transform data an export writes into the duplicated SVG document:
overall `width`/`height` attributes and the `translate(tx, ty)`(` scale(s)`)
applied to the content group. -/
structure SVGGeometry where
  width : ℚ
  height : ℚ
  translateX : ℚ
  translateY : ℚ
  scale : ℚ
deriving DecidableEq, Repr

/-- Geometry part of `createCanvasFromSVG` (PNG/PDF path; callers pass
`scale = 2`): `canvasWidth = (bbox.width + padding*2) * scale`, and the group
transform `translate((-bbox.x + padding) * scale, (-bbox.y + padding) * scale)
scale(scale)` with `padding = 20`. -/
def createCanvasFromSVGGeometry (bbox : BBox) (scale : ℚ) : SVGGeometry :=
  let padding : ℚ := 20
  { width := (bbox.width + padding * 2) * scale
    height := (bbox.height + padding * 2) * scale
    translateX := (-bbox.x + padding) * scale
    translateY := (-bbox.y + padding) * scale
    scale := scale }

/-- Geometry part of `getSVGString` (SVG export path): document size
`bbox.width + padding*2` × `bbox.height + padding*2` and group transform
`translate(-bbox.x + padding, -bbox.y + padding)` with `padding = 20`
(no scale factor, i.e. scale 1). -/
def getSVGStringGeometry (bbox : BBox) : SVGGeometry :=
  let padding : ℚ := 20
  { width := bbox.width + padding * 2
    height := bbox.height + padding * 2
    translateX := -bbox.x + padding
    translateY := -bbox.y + padding
    scale := 1 }

/-! ## Fit-to-A4 PDF placement (`handleExportPDF`, `fitToA4` branch) -/

/-- Orientation, page size, image size and placement computed by the
fit-to-A4 branch of `handleExportPDF`. -/
structure PdfFitPlacement where
  isLandscape : Bool
  pageWidth : ℚ
  pageHeight : ℚ
  imgWidth : ℚ
  imgHeight : ℚ
  x : ℚ
  y : ℚ
deriving DecidableEq, Repr

/-- The fit-to-A4 computation of `handleExportPDF`, verbatim:
aspect ratio `canvas.width / canvas.height`, landscape iff ratio > 1,
usable area = A4 page minus 10 mm padding per side, width-first scaling
capped by the height, centered placement. -/
def fitToA4Placement (canvasWidth canvasHeight : ℚ) : PdfFitPlacement :=
  let PADDING_MM : ℚ := 10
  let A4_WIDTH_MM : ℚ := 210
  let A4_HEIGHT_MM : ℚ := 297
  let canvasAspectRatio := canvasWidth / canvasHeight
  let isLandscape : Bool := decide (canvasAspectRatio > 1)
  let pageWidth := if isLandscape then A4_HEIGHT_MM else A4_WIDTH_MM
  let pageHeight := if isLandscape then A4_WIDTH_MM else A4_HEIGHT_MM
  let usableWidth := pageWidth - PADDING_MM * 2
  let usableHeight := pageHeight - PADDING_MM * 2
  let imgWidth := usableWidth
  let imgHeight := imgWidth / canvasAspectRatio
  let img : ℚ × ℚ :=
    if imgHeight > usableHeight then (usableHeight * canvasAspectRatio, usableHeight)
    else (imgWidth, imgHeight)
  { isLandscape := isLandscape
    pageWidth := pageWidth
    pageHeight := pageHeight
    imgWidth := img.1
    imgHeight := img.2
    x := (pageWidth - img.1) / 2
    y := (pageHeight - img.2) / 2 }

/-! ## Label word-wrap (`wrapText` inside the render effect)

The source splits the label into whitespace-delimited tokens
(`text.text().split(/\s+/)`) and packs them greedily into tspans, measuring
the current line with `getComputedTextLength()`.  The embedding works on the
token list directly and takes the text-measuring function as a parameter
`measure : String → ℚ`; a line is measured as its tokens joined by single
spaces, exactly the string the source puts into the tspan
(`line.join(" ")`). -/

/-- The string a line of tokens renders as: `line.join(" ")`. -/
def joinWords (line : List String) : String := String.intercalate " " line

/-- The wrap loop of `wrapText` (`while (word = words.pop()) {...}`): pop the
next word; the loop runs only while the popped word is truthy, so an
EMPTY-STRING token (produced by `split(/\s+/)` on a label with leading or
trailing whitespace) ends the loop on the spot, discarding it and every word
after it.  Otherwise push the word onto the current line; if the line now
measures wider than `width` and holds more than one word, emit the line
without that word and start a new line with it. -/
def wrapLoop (measure : String → ℚ) (width : ℚ) :
    List String → List String → List (List String)
  | [], line => [line]
  | w :: ws, line =>
    if w = "" then [line]
    else
      let line' := line ++ [w]
      if measure (joinWords line') > width ∧ 1 < line'.length then
        line :: wrapLoop measure width ws [w]
      else
        wrapLoop measure width ws line'

/-- `wrapText` applied to one label, as the token list `words`: the list of
lines (each a list of words) the loop produces.  The source calls it with
`width = NODE_WIDTH - 25`. -/
def wrapText (measure : String → ℚ) (width : ℚ) (words : List String) :
    List (List String) :=
  wrapLoop measure width words []

/-! ## Dagre graph construction (`FlowChart` render effect)

`new dagre.graphlib.Graph()` is a directed, non-multigraph graph: node keys
are ids, edge keys are (source, target) pairs; `setNode`/`setEdge` overwrite
the stored value when the key already exists, and `setEdge` implicitly
creates missing endpoint nodes (with no label object).  Insertion order is
kept, matching graphlib's `nodes()`/`edges()` enumeration. -/

/-- The value object the render effect registers per node:
`{ label, width: NODE_WIDTH, height: NODE_HEIGHT, type, description }`. -/
structure DagreNodeLabel where
  label : String
  width : ℚ
  height : ℚ
  type : NodeType
  description : Option String
deriving DecidableEq, Repr

/-- The value object registered per edge: `{ label: edge.label }`. -/
structure DagreEdgeValue where
  label : Option String
deriving DecidableEq, Repr

/-- The graphlib graph: insertion-ordered association lists keyed by node id
and by (source id, target id).  A `none` node value is an endpoint implicitly
created by `setEdge`. -/
structure DagreGraph where
  nodes : List (String × Option DagreNodeLabel)
  edges : List ((String × String) × DagreEdgeValue)
deriving DecidableEq, Repr

/-- `g.hasNode(id)`. -/
def DagreGraph.hasNode (g : DagreGraph) (id : String) : Bool :=
  g.nodes.any (fun p => p.1 == id)

/-- `g.setNode(id, value)`: overwrite if present, else append. -/
def DagreGraph.setNode (g : DagreGraph) (id : String) (v : DagreNodeLabel) : DagreGraph :=
  if g.hasNode id then
    { g with nodes := g.nodes.map (fun p => if p.1 == id then (p.1, some v) else p) }
  else
    { g with nodes := g.nodes ++ [(id, some v)] }

/-- graphlib's implicit endpoint creation inside `setEdge`. -/
def DagreGraph.ensureNode (g : DagreGraph) (id : String) : DagreGraph :=
  if g.hasNode id then g else { g with nodes := g.nodes ++ [(id, none)] }

/-- `g.hasEdge(v, w)`. -/
def DagreGraph.hasEdge (g : DagreGraph) (v w : String) : Bool :=
  g.edges.any (fun p => p.1 == (v, w))

/-- `g.setEdge(v, w, value)`: create missing endpoints, then overwrite the
(v, w) entry if present, else append it (non-multigraph: one entry per
ordered pair). -/
def DagreGraph.setEdge (g : DagreGraph) (v w : String) (val : DagreEdgeValue) : DagreGraph :=
  let g' := (g.ensureNode v).ensureNode w
  if g'.hasEdge v w then
    { g' with edges := g'.edges.map (fun p => if p.1 == (v, w) then (p.1, val) else p) }
  else
    { g' with edges := g'.edges ++ [((v, w), val)] }

/-- The graph the render effect builds from one Diagram:
`nodes.forEach(node => g.setNode(node.id, {...}))` then
`edges.forEach(edge => g.setEdge(edge.source, edge.target, {label})).` -/
def buildGraph (d : FlowData) : DagreGraph :=
  let g0 : DagreGraph := ⟨[], []⟩
  let g1 := d.nodes.foldl
    (fun g n => g.setNode n.id ⟨n.label, NODE_WIDTH, NODE_HEIGHT, n.type, n.description⟩) g0
  d.edges.foldl (fun g e => g.setEdge e.source e.target ⟨e.label⟩) g1

/-- A LayoutNode read back from the oracle: the registered id and value plus
the assigned center.  The oracle's coordinate assignment is the parameter
`pos`. -/
structure LayoutNode where
  id : String
  pos : Point
  value : Option DagreNodeLabel
deriving DecidableEq, Repr

/-- A LayoutEdge read back from the oracle: the registered endpoint pair and
value plus the routing polyline assigned by the oracle (parameter `route`). -/
structure LayoutEdge where
  source : String
  target : String
  value : DagreEdgeValue
  points : List Point
deriving DecidableEq, Repr

/-- After `dagre.layout(g)`, the adapter reads one LayoutNode per graph node
(`g.nodes()`), in order. -/
def layoutNodes (pos : String → Point) (g : DagreGraph) : List LayoutNode :=
  g.nodes.map (fun p => ⟨p.1, pos p.1, p.2⟩)

/-- After `dagre.layout(g)`, the adapter reads one LayoutEdge per graph edge
(`g.edges()`), in order. -/
def layoutEdges (route : String × String → List Point) (g : DagreGraph) : List LayoutEdge :=
  g.edges.map (fun p => ⟨p.1.1, p.1.2, p.2, route p.1⟩)

/-- The validity predicate the claim assumes of a Diagram: node ids unique and
every edge's endpoints declared. -/
def validDiagram (d : FlowData) : Prop :=
  (d.nodes.map NodeData.id).Nodup ∧
  ∀ e ∈ d.edges, e.source ∈ d.nodes.map NodeData.id ∧ e.target ∈ d.nodes.map NodeData.id

instance (d : FlowData) : Decidable (validDiagram d) := by
  unfold validDiagram; infer_instance

/-! ## Rendered graph state and the drag handler (`dragHandler`) -/

/-- The mutable laid-out node the render keeps in the dagre graph: value fields
plus the assigned/dragged center `x, y`. -/
structure LayoutNodeState where
  label : String
  width : ℚ
  height : ℚ
  type : NodeType
  description : Option String
  x : ℚ
  y : ℚ
deriving DecidableEq, Repr

/-- A rendered edge label: its text and its anchor point (the `x`, `y` the
label `<text>` is translated to).  Only edges whose value carries a label are
rendered with one (`g.edges().filter(e => g.edge(e).label)`). -/
structure EdgeLabelState where
  text : String
  x : ℚ
  y : ℚ
deriving DecidableEq, Repr

/-- A rendered edge: endpoints `v`/`w`, the path's current routing points, and
the optional rendered label. -/
structure LayoutEdgeState where
  v : String
  w : String
  points : List Point
  label : Option EdgeLabelState
deriving DecidableEq, Repr

/-- The on-screen graph the interaction layer mutates: laid-out nodes keyed by
id (insertion order), and the rendered edges. -/
structure RenderedGraph where
  nodes : List (String × LayoutNodeState)
  edges : List LayoutEdgeState
deriving DecidableEq, Repr

/-- `g.node(id)` read as a center point (`{x: node.x, y: node.y}`); the drag
handler only ever reads ids present in the graph. -/
def nodeCenter (nodes : List (String × LayoutNodeState)) (id : String) : Point :=
  match nodes.lookup id with
  | some n => ⟨n.x, n.y⟩
  | none => ⟨0, 0⟩

/-- The per-edge work of the drag handler: for an edge incident to the dragged
node, replace the path by the straight 2-point line between the current
endpoint centers and move the label (when rendered) to their midpoint;
any other edge is not touched. -/
def dragEdgeUpdate (nodes : List (String × LayoutNodeState)) (nodeId : String)
    (e : LayoutEdgeState) : LayoutEdgeState :=
  if e.v = nodeId ∨ e.w = nodeId then
    let s := nodeCenter nodes e.v
    let t := nodeCenter nodes e.w
    { e with
      points := [s, t]
      label := e.label.map (fun L => { L with x := (s.x + t.x) / 2, y := (s.y + t.y) / 2 }) }
  else e

/-- One `drag` event of `dragHandler`: write the pointer position into the
dragged node (`nodeData.x = event.x; nodeData.y = event.y`), then update the
incident edge paths and labels from the now-current centers. -/
def dragNode (g : RenderedGraph) (nodeId : String) (eventX eventY : ℚ) : RenderedGraph :=
  let nodes' := g.nodes.map
    (fun p => if p.1 = nodeId then (p.1, { p.2 with x := eventX, y := eventY }) else p)
  { nodes := nodes', edges := g.edges.map (dragEdgeUpdate nodes' nodeId) }

/-! ## ViewTransform and the auto-fit effect (`FlowChart` main `useEffect`) -/

/-- A d3 zoom transform `translate(tx, ty) scale(k)`. -/
structure ViewTransform where
  translateX : ℚ
  translateY : ℚ
  k : ℚ
deriving DecidableEq, Repr

/-- The auto-fit transform the effect installs when the laid-out graph has
positive size: `scale = min((cw - 80)/gw, (ch - 80)/gh, 1.5)`, centered.
`none` when `graphWidth` or `graphHeight` is not positive (the effect then
leaves the zoom state alone). -/
def autoFitTransform (containerWidth containerHeight graphWidth graphHeight : ℚ) :
    Option ViewTransform :=
  if 0 < graphWidth ∧ 0 < graphHeight then
    let scale := min (min ((containerWidth - 80) / graphWidth)
                          ((containerHeight - 80) / graphHeight)) (3 / 2)
    some ⟨(containerWidth - graphWidth * scale) / 2,
          (containerHeight - graphHeight * scale) / 2, scale⟩
  else none

/-- The `FlowChart` state the view-reset question is about: the dependencies
`[data, customNodeStyles]` the main effect last ran with, and the current zoom
transform (`none` before any transform is installed). -/
structure ChartRenderState where
  lastDeps : Option (Option FlowData × NodeStyles)
  viewTransform : Option ViewTransform
deriving DecidableEq, Repr

/-- One React render of `FlowChart` with props/state `(data, styles)`.
React re-runs the main effect exactly when the dependency pair differs from
the one of the previous run (the source compares by reference; every
`handleStyleChange` builds a fresh object, so a style edit that changes a
value always re-runs it — value inequality coincides with that here).
A run with no data or no nodes just clears the canvas; otherwise it lays the
graph out (`dims` is the layout oracle's overall size) and re-installs the
auto-fit transform, discarding whatever pan/zoom the user had set. -/
def renderFlowChart (dims : FlowData → ℚ × ℚ) (containerWidth containerHeight : ℚ)
    (s : ChartRenderState) (data : Option FlowData) (styles : NodeStyles) :
    ChartRenderState :=
  let deps := (data, styles)
  if s.lastDeps = some deps then s
  else
    match data with
    | none => { s with lastDeps := some deps }
    | some d =>
      if d.nodes.isEmpty then { s with lastDeps := some deps }
      else
        let gw := (dims d).1
        let gh := (dims d).2
        { lastDeps := some deps
          viewTransform :=
            match autoFitTransform containerWidth containerHeight gw gh with
            | some t => some t
            | none => s.viewTransform }

/-- A pan/zoom gesture: the d3 zoom behavior stores the user's transform. -/
def userSetTransform (s : ChartRenderState) (vt : ViewTransform) : ChartRenderState :=
  { s with viewTransform := some vt }

/-! ## Provider response validation and retry (`geminiService.ts`) -/

/-- A node object of the parsed provider JSON.  A field is `none` when it is
absent or not a string — exactly the cases the source's
`typeof ... !== 'string'` checks reject. -/
structure RawNode where
  id : Option String
  label : Option String
  type : Option String
  description : Option String
deriving DecidableEq, Repr

/-- An edge object of the parsed provider JSON. -/
structure RawEdge where
  source : Option String
  target : Option String
  label : Option String
deriving DecidableEq, Repr

/-- The `flowchart` part of the parsed provider JSON. -/
structure RawFlow where
  nodes : List RawNode
  edges : List RawEdge
deriving DecidableEq, Repr

/-- The whole parsed provider JSON.  `flowchart`/`functions` are `none` when
missing or of the wrong shape (the source's `Array.isArray`/`typeof`
structural checks). -/
structure RawResponse where
  flowchart : Option RawFlow
  functions : Option (List String)
deriving DecidableEq, Repr

/-- The node types accepted by the validation:
`['start', 'process', 'decision', 'end'].includes(node.type)`. -/
def allowedNodeTypes : List String := ["start", "process", "decision", "end"]

/-- The `flowchart.nodes.map(...)` pass: throw on the first node without
string `id`/`label`/`type` or with a type outside the allowed list, otherwise
collect the ids (the `Set` the edge pass consults). -/
def validateNodes : List RawNode → Except String (List String)
  | [] => .ok []
  | n :: ns =>
    match n.id, n.label, n.type with
    | some i, some _, some t =>
      if allowedNodeTypes.contains t then
        match validateNodes ns with
        | .ok ids => .ok (i :: ids)
        | .error msg => .error msg
      else
        .error ("Invalid node type: Node '" ++ i ++ "' has an unsupported type '" ++ t ++ "'.")
    | _, _, _ =>
      .error "Invalid node data: Each node must have a valid 'id', 'label', and 'type'."

/-- The `for (const edge of flowchart.edges)` pass: throw on the first edge
without string `source`/`target` or whose endpoint is not a collected id. -/
def validateEdges (ids : List String) : List RawEdge → Except String Unit
  | [] => .ok ()
  | e :: es =>
    match e.source, e.target with
    | some s, some t =>
      if ids.contains s then
        if ids.contains t then
          validateEdges ids es
        else
          .error ("Data integrity issue: Edge references a non-existent target node with ID '"
                  ++ t ++ "'.")
      else
        .error ("Data integrity issue: Edge references a non-existent source node with ID '"
                ++ s ++ "'.")
    | _, _ => .error "Invalid edge data: Each edge must have a 'source' and 'target'."

/-- The whole validation block of one attempt: the structural check on
`flowchart`/`functions`, then the node pass, then the edge pass; on success
the attempt returns `parsedData` unchanged. -/
def validatePayload (resp : RawResponse) : Except String RawResponse :=
  match resp.flowchart, resp.functions with
  | some flow, some _ =>
    match validateNodes flow.nodes with
    | .error msg => .error msg
    | .ok ids =>
      match validateEdges ids flow.edges with
      | .error msg => .error msg
      | .ok _ => .ok resp
  | _, _ =>
    .error "Invalid data structure: The AI response is missing key components or has incorrect types."

/-- What one provider call of attempt `i` produced: a parsed payload (the
request and `JSON.parse` succeeded), or a thrown error with its message. -/
inductive AttemptOutcome where
  | payload (p : RawResponse)
  | providerError (message : String)
deriving DecidableEq, Repr

/-- The body of one `try` block: run the provider call's outcome through the
validation; any throw carries its message to the `catch`. -/
def attemptStep : AttemptOutcome → Except String RawResponse
  | .payload p => validatePayload p
  | .providerError m => .error m

/-- `sub` begins the character list `s`. -/
def beginsWith : List Char → List Char → Bool
  | [], _ => true
  | _ :: _, [] => false
  | a :: as, b :: bs => a == b && beginsWith as bs

/-- `sub` occurs contiguously somewhere in `s`. -/
def hasSubstr (sub : List Char) : List Char → Bool
  | [] => sub.isEmpty
  | c :: rest => beginsWith sub (c :: rest) || hasSubstr sub rest

/-- `error.message.includes('429')` — the rate-limit detector of the catch
block. -/
def messageIncludes429 (msg : String) : Bool :=
  hasSubstr "429".toList msg.toList

/-- The span the regex `({.*})/s` captures in the message: from the FIRST
opening brace to the LAST closing brace after it (the greedy dot-matches-all
capture), `none` when no such span exists (no brace, or no closing brace after
the first opening one). -/
def braceSpanList (cs : List Char) : Option (List Char) :=
  match cs.dropWhile (fun c => !(c == '\x7b')) with
  | [] => none
  | first :: rest =>
    match (first :: rest).reverse.dropWhile (fun c => !(c == '\x7d')) with
    | [] => none
    | rev => some rev.reverse

/-- `finalErrorMessage.match(/({.*})/s)` as a string function. -/
def matchBraceSpan (msg : String) : Option String :=
  (braceSpanList msg.toList).map (fun cs => String.mk cs)

/-- The final error thrown by the catch block:
`Failed to generate flowchart: ${finalErrorMessage}`, with the source's
best-effort unwrap first: when the message embeds a brace span (the
`/({.*})/s` match), `JSON.parse` it and, if that yields an object with a
truthy `error.message`, report that instead of the raw message.
`jsonErrorMessage` abstracts the JS runtime facility
`JSON.parse` composed with the `errorJson?.error?.message` truthiness read
(an external builtin, like the layout oracle): it returns the embedded
message when the span parses as a JSON object carrying a truthy one, and
`none` when parsing throws or the field is absent or falsy — in both of which
cases the source keeps the original message. -/
def finalErrorMessage (jsonErrorMessage : String → Option String) (msg : String) : String :=
  let finalMsg :=
    match matchBraceSpan msg with
    | none => msg
    | some span =>
      match jsonErrorMessage span with
      | some m => m
      | none => msg
  "Failed to generate flowchart: " ++ finalMsg

/-- `const maxRetries = 3`. -/
def maxRetries : Nat := 3

/-- The observable outcome of a `generateFlowFromScript` run: the returned
payload or thrown message, the `setTimeout` delays inserted before retries
(in order, in ms), and how many provider attempts were made. -/
structure RunResult where
  result : Except String RawResponse
  delays : List Nat
  attemptsUsed : Nat
deriving Repr

/-- The `while (attempt < maxRetries)` loop.  `fuel` is the number of loop
iterations still allowed (`maxRetries - attempt`); the fuel-0 exit is the
throw after the loop.  On a caught error the attempt counter increments; only
a rate-limit message with attempts remaining sleeps `delayMs` and doubles it,
anything else throws the final error immediately. -/
def genLoop (jsonErrorMessage : String → Option String) (provider : Nat → AttemptOutcome) :
    Nat → Nat → Nat → List Nat → RunResult
  | 0, attempt, _, delays =>
    ⟨.error "Failed to generate flowchart after multiple attempts. The API is busy, please try again later.",
     delays.reverse, attempt⟩
  | fuel + 1, attempt, delayMs, delays =>
    match attemptStep (provider attempt) with
    | .ok p => ⟨.ok p, delays.reverse, attempt + 1⟩
    | .error msg =>
      let attempt' := attempt + 1
      if messageIncludes429 msg && decide (attempt' < maxRetries) then
        genLoop jsonErrorMessage provider fuel attempt' (delayMs * 2) (delayMs :: delays)
      else
        ⟨.error (finalErrorMessage jsonErrorMessage msg), delays.reverse, attempt'⟩

/-- `generateFlowFromScript`, abstracted over the provider's successive
responses and the runtime's JSON parsing of error payloads:
`attempt = 0`, `delayMs = 2000`, up to `maxRetries` iterations. -/
def generateFlowFromScript (jsonErrorMessage : String → Option String)
    (provider : Nat → AttemptOutcome) : RunResult :=
  genLoop jsonErrorMessage provider maxRetries 0 2000 []

/-! ## Top-level app state (`App.tsx`) -/

/-- The `App` component's state slots. -/
structure AppState where
  flowData : Option RawFlow
  generatedFunctions : List String
  isLoading : Bool
  error : Option String
deriving DecidableEq, Repr

/-- The `useState` initial values of `App`. -/
def initialAppState : AppState :=
  { flowData := none, generatedFunctions := [], isLoading := false, error := none }

/-- JS `!script.trim()`: the script trims to the empty string, i.e. every
character is whitespace (stated in this kernel-evaluable form). -/
def isBlank (script : String) : Bool :=
  script.toList.all Char.isWhitespace

/-- `handleAnalyzeScript`: bail out on an all-whitespace script; otherwise
clear error/diagram/functions, run `generateFlowFromScript`, and either store
the result's flowchart and functions or store the thrown message, clearing
`isLoading` either way. -/
def handleAnalyzeScript (st : AppState) (script : String)
    (jsonErrorMessage : String → Option String)
    (provider : Nat → AttemptOutcome) : AppState :=
  if isBlank script then st
  else
    let cleared : AppState :=
      { st with isLoading := true, error := none, flowData := none, generatedFunctions := [] }
    match (generateFlowFromScript jsonErrorMessage provider).result with
    | .ok resp =>
      { cleared with
        flowData := resp.flowchart
        generatedFunctions := resp.functions.getD []
        isLoading := false }
    | .error msg => { cleared with error := some msg, isLoading := false }

/-! ## Contract predicates and concrete examples -/

/-- Code-level node rejection: some of `id`/`label`/`type` is not a string, or
the type is outside the allowed list — exactly what `validateNodes` throws
on. -/
def nodeInvalidCode (n : RawNode) : Bool :=
  match n.id, n.label, n.type with
  | some _, some _, some t => !(allowedNodeTypes.contains t)
  | _, _, _ => true

/-- Spec-level node rejection, following the spec's words: the node lacks a
NON-EMPTY string id, a NON-EMPTY string label, or has a type outside
{start, process, decision, end}. -/
def nodeInvalidSpec (n : RawNode) : Bool :=
  match n.id, n.label, n.type with
  | some i, some l, some t => i == "" || l == "" || !(allowedNodeTypes.contains t)
  | _, _, _ => true

/-- Edge rejection (same in code and spec): `source` or `target` is not a
string or does not resolve to a declared node id. -/
def edgeInvalid (ids : List String) (e : RawEdge) : Bool :=
  match e.source, e.target with
  | some s, some t => !(ids.contains s) || !(ids.contains t)
  | _, _ => true

/-- The ids declared by the payload's nodes. -/
def declaredIds (f : RawFlow) : List String := f.nodes.filterMap RawNode.id

/-- The validation contract as the code enforces it: some node has a
non-string `id`/`label`/`type` or an unsupported type, or some edge does not
resolve. -/
def contractViolation (resp : RawResponse) : Bool :=
  match resp.flowchart with
  | none => false
  | some flow =>
    flow.nodes.any nodeInvalidCode || flow.edges.any (edgeInvalid (declaredIds flow))

/-- The validation contract as the claim states it (with the non-emptiness
requirement on ids and labels). -/
def specContractViolation (resp : RawResponse) : Bool :=
  match resp.flowchart with
  | none => false
  | some flow =>
    flow.nodes.any nodeInvalidSpec || flow.edges.any (edgeInvalid (declaredIds flow))

/-- A payload whose single node has the EMPTY string as id and label: it
violates the spec's non-emptiness requirement but passes the code's
`typeof === 'string'` checks. -/
def emptyIdResponse : RawResponse :=
  ⟨some ⟨[⟨some "", some "", some "start", none⟩], []⟩, some []⟩

/-- A payload whose single node has the unsupported type `"banana"`. -/
def badTypeResponse : RawResponse :=
  ⟨some ⟨[⟨some "n1", some "Start", some "banana", none⟩], []⟩, some []⟩

/-- A well-formed single-node payload. -/
def goodResponse : RawResponse :=
  ⟨some ⟨[⟨some "n1", some "Start", some "start", none⟩], []⟩, some []⟩

/-- A provider that is rate-limited on attempts 0 and 1 and succeeds on
attempt 2. -/
def rateLimitProvider : Nat → AttemptOutcome := fun i =>
  if i = 0 then .providerError "Error 429: rate limited"
  else if i = 1 then .providerError "HTTP 429 again"
  else .payload goodResponse

/-- A Diagram that is valid per the data-model invariants (unique node ids,
resolving endpoints) but registers the SAME (source, target) pair twice. -/
def dupEdgeFlow : FlowData :=
  ⟨[⟨"a", "A", .process, none⟩, ⟨"b", "B", .process, none⟩],
   [⟨"a", "b", none⟩, ⟨"a", "b", none⟩]⟩

/-- A small valid Diagram with pairwise-distinct edge pairs. -/
def simpleFlow : FlowData :=
  ⟨[⟨"a", "A", .start, none⟩, ⟨"b", "B", .«end», none⟩], [⟨"a", "b", some "ok"⟩]⟩

/-- A one-node Diagram used for the restyle/view-reset scenario. -/
def styleFlow : FlowData := ⟨[⟨"a", "A", .process, none⟩], []⟩

/-- A small rendered graph: a labelled edge a→b and an unlabelled edge b→c. -/
def dragExample : RenderedGraph :=
  { nodes := [("a", ⟨"A", 150, 60, .process, none, 0, 0⟩),
              ("b", ⟨"B", 150, 60, .process, none, 0, 100⟩),
              ("c", ⟨"C", 150, 60, .«end», none, 0, 200⟩)]
    edges := [⟨"a", "b", [⟨0, 0⟩, ⟨0, 100⟩], some ⟨"yes", 0, 50⟩⟩,
              ⟨"b", "c", [⟨0, 100⟩, ⟨0, 200⟩], none⟩] }

/-! # Theorems -/

/-- **C5** — For every live-diagram bounding box and both scale requests
s = 1 (`getSVGString`) and s = 2 (`createCanvasFromSVG`), the exported
document has overall size ((w + 40)·s) × ((h + 40)·s) and the content group is
re-anchored by translate((−x + 20)·s, (−y + 20)·s): the content area is the
bounding box padded by exactly 20 units per side at the requested scale. -/
theorem export_geometry_padding (bbox : BBox) :
    (getSVGStringGeometry bbox).width = (bbox.width + 40) * 1 ∧
    (getSVGStringGeometry bbox).height = (bbox.height + 40) * 1 ∧
    (getSVGStringGeometry bbox).translateX = (-bbox.x + 20) * 1 ∧
    (getSVGStringGeometry bbox).translateY = (-bbox.y + 20) * 1 ∧
    (getSVGStringGeometry bbox).scale = 1 ∧
    (createCanvasFromSVGGeometry bbox 2).width = (bbox.width + 40) * 2 ∧
    (createCanvasFromSVGGeometry bbox 2).height = (bbox.height + 40) * 2 ∧
    (createCanvasFromSVGGeometry bbox 2).translateX = (-bbox.x + 20) * 2 ∧
    (createCanvasFromSVGGeometry bbox 2).translateY = (-bbox.y + 20) * 2 ∧
    (createCanvasFromSVGGeometry bbox 2).scale = 2 := by
  refine ⟨?_, ?_, ?_, ?_, rfl, ?_, ?_, ?_, ?_, rfl⟩ <;>
    simp only [getSVGStringGeometry, createCanvasFromSVGGeometry] <;> ring

/-- Witness for `export_geometry_padding` at the bounding box
(x, y, w, h) = (3, 4, 100, 50). -/
theorem export_geometry_padding_witness :
    (getSVGStringGeometry ⟨3, 4, 100, 50⟩).width = (100 + 40) * 1 ∧
    (getSVGStringGeometry ⟨3, 4, 100, 50⟩).height = (50 + 40) * 1 ∧
    (getSVGStringGeometry ⟨3, 4, 100, 50⟩).translateX = (-3 + 20) * 1 ∧
    (getSVGStringGeometry ⟨3, 4, 100, 50⟩).translateY = (-4 + 20) * 1 ∧
    (getSVGStringGeometry ⟨3, 4, 100, 50⟩).scale = 1 ∧
    (createCanvasFromSVGGeometry ⟨3, 4, 100, 50⟩ 2).width = (100 + 40) * 2 ∧
    (createCanvasFromSVGGeometry ⟨3, 4, 100, 50⟩ 2).height = (50 + 40) * 2 ∧
    (createCanvasFromSVGGeometry ⟨3, 4, 100, 50⟩ 2).translateX = (-3 + 20) * 2 ∧
    (createCanvasFromSVGGeometry ⟨3, 4, 100, 50⟩ 2).translateY = (-4 + 20) * 2 ∧
    (createCanvasFromSVGGeometry ⟨3, 4, 100, 50⟩ 2).scale = 2 :=
  export_geometry_padding ⟨3, 4, 100, 50⟩

/-- **C7** — After any finite sequence of style mutations, reset yields the
built-in defaults exactly (the source's updates are non-mutating spreads, and
reset installs the `defaultNodeStyles` constant); moreover a style change
leaves every other node type's entry untouched. -/
theorem style_reset_roundtrip (ops : List (NodeType × StyleChange)) :
    resetStyles (applyStyleChanges defaultNodeStyles ops) = defaultNodeStyles ∧
    ∀ (prev : NodeStyles) (t : NodeType) (c : StyleChange) (t' : NodeType),
      t' ≠ t → getStyle (handleStyleChange prev t c) t' = getStyle prev t' := by
  refine ⟨rfl, ?_⟩
  intro prev t c t' hne
  cases t <;> cases t' <;> first
    | exact absurd rfl hne
    | rfl

/-- Witness for `style_reset_roundtrip` after one concrete mutation, with the
frame property read at a distinct type. -/
theorem style_reset_roundtrip_witness :
    resetStyles (applyStyleChanges defaultNodeStyles [(NodeType.process, .fontSize 99)])
      = defaultNodeStyles ∧
    getStyle (handleStyleChange defaultNodeStyles .process (.color1 "#000000")) .start
      = getStyle defaultNodeStyles .start :=
  ⟨(style_reset_roundtrip [(NodeType.process, .fontSize 99)]).1,
   (style_reset_roundtrip []).2 defaultNodeStyles .process (.color1 "#000000") .start
     (by decide)⟩

/-- **C8 counterexample** — the claim "after every Style Editor font-size
change the affected type's fontSize is in [8, 24]" fails on the code: the
handler stores `parseInt(e.target.value, 10)` unclamped, so the reachable
change (process, fontSize, 100) — typed into the number input, whose
`min`/`max` attributes do not restrict typed values — leaves 100 in the
StyleSet. -/
theorem fontSize_not_clamped :
    fontSizeInvariant defaultNodeStyles ∧
    (getStyle (handleStyleChange defaultNodeStyles .process (.fontSize 100)) .process).fontSize
      = 100 ∧
    ¬ fontSizeInvariant (handleStyleChange defaultNodeStyles .process (.fontSize 100)) := by
  exact ⟨by decide, rfl, by decide⟩

/-- **C8 (amended)** — the defaults satisfy the [8, 24] bound; a font-size
change stores exactly the given integer, so the bound is preserved by every
font-size change whose value lies in [8, 24] (the range the input field
advertises), though the handler itself never clamps. -/
theorem fontSize_invariant_in_range (s : NodeStyles) (t : NodeType) (n : Int)
    (hs : fontSizeInvariant s) (h8 : 8 ≤ n) (h24 : n ≤ 24) :
    fontSizeInvariant defaultNodeStyles ∧
    fontSizeInvariant (handleStyleChange s t (.fontSize n)) ∧
    (getStyle (handleStyleChange s t (.fontSize n)) t).fontSize = n := by
  refine ⟨by decide, ?_, ?_⟩
  · cases t <;>
      simp_all [fontSizeInvariant, handleStyleChange, setStyle, getStyle, applyStyleChange]
  · cases t <;> rfl

/-- Witness for `fontSize_invariant_in_range` at (decision, 10). -/
theorem fontSize_invariant_in_range_witness :
    fontSizeInvariant defaultNodeStyles ∧
    fontSizeInvariant (handleStyleChange defaultNodeStyles .decision (.fontSize 10)) ∧
    (getStyle (handleStyleChange defaultNodeStyles .decision (.fontSize 10)) .decision).fontSize
      = 10 :=
  fontSize_invariant_in_range defaultNodeStyles .decision 10 (by decide) (by decide) (by decide)

/-- Width-first fit of an aspect-ratio-r image into a uw × uh area, as the
fit-to-A4 branch computes it: take the full usable width, and when that
overflows the usable height, take the full usable height instead. -/
lemma fit_branch (r uw uh : ℚ) (hr : 0 < r) (huw : 0 < uw) (huh : 0 < uh) :
    0 < (if uw / r > uh then ((uh * r, uh) : ℚ × ℚ) else (uw, uw / r)).1 ∧
    0 < (if uw / r > uh then ((uh * r, uh) : ℚ × ℚ) else (uw, uw / r)).2 ∧
    (if uw / r > uh then ((uh * r, uh) : ℚ × ℚ) else (uw, uw / r)).1 /
      (if uw / r > uh then ((uh * r, uh) : ℚ × ℚ) else (uw, uw / r)).2 = r ∧
    (if uw / r > uh then ((uh * r, uh) : ℚ × ℚ) else (uw, uw / r)).1 ≤ uw ∧
    (if uw / r > uh then ((uh * r, uh) : ℚ × ℚ) else (uw, uw / r)).2 ≤ uh := by
  split_ifs with hc
  · refine ⟨mul_pos huh hr, huh, ?_, ?_, le_refl uh⟩
    · exact mul_div_cancel_left₀ r huh.ne'
    · exact le_of_lt ((lt_div_iff₀ hr).mp hc)
  · refine ⟨huw, div_pos huw hr, ?_, le_refl uw, not_lt.mp hc⟩
    rw [div_div_eq_mul_div, mul_comm, mul_div_assoc, div_self huw.ne', mul_one]

/-- **C6** — in fit-to-page PDF export, for every canvas of positive size:
landscape exactly when width/height > 1; A4 page dimensions 297×210 mm in
landscape and 210×297 mm in portrait; the placed image keeps the canvas's
aspect ratio, fits within the page minus the 10 mm margins, and is
centered. -/
theorem fitToA4_spec (w h : ℚ) (hw : 0 < w) (hh : 0 < h) :
    ((fitToA4Placement w h).isLandscape = true ↔ 1 < w / h) ∧
    ((fitToA4Placement w h).isLandscape = true →
      (fitToA4Placement w h).pageWidth = 297 ∧ (fitToA4Placement w h).pageHeight = 210) ∧
    ((fitToA4Placement w h).isLandscape = false →
      (fitToA4Placement w h).pageWidth = 210 ∧ (fitToA4Placement w h).pageHeight = 297) ∧
    0 < (fitToA4Placement w h).imgWidth ∧
    0 < (fitToA4Placement w h).imgHeight ∧
    (fitToA4Placement w h).imgWidth / (fitToA4Placement w h).imgHeight = w / h ∧
    (fitToA4Placement w h).imgWidth ≤ (fitToA4Placement w h).pageWidth - 2 * 10 ∧
    (fitToA4Placement w h).imgHeight ≤ (fitToA4Placement w h).pageHeight - 2 * 10 ∧
    (fitToA4Placement w h).x
      = ((fitToA4Placement w h).pageWidth - (fitToA4Placement w h).imgWidth) / 2 ∧
    (fitToA4Placement w h).y
      = ((fitToA4Placement w h).pageHeight - (fitToA4Placement w h).imgHeight) / 2 := by
  have hr : 0 < w / h := div_pos hw hh
  by_cases hL : 1 < w / h
  · have hd : decide (w / h > 1) = true := decide_eq_true hL
    have hfit := fit_branch (w / h) 277 190 hr (by norm_num) (by norm_num)
    obtain ⟨h1, h2, h3, h4, h5⟩ := hfit
    simp only [fitToA4Placement, gt_iff_lt, hd, if_true, Bool.true_eq_false] at *
    norm_num at *
    exact ⟨hL, h1, h2, h3, h4, h5⟩
  · have hd : decide (w / h > 1) = false := decide_eq_false hL
    have hfit := fit_branch (w / h) 190 277 hr (by norm_num) (by norm_num)
    obtain ⟨h1, h2, h3, h4, h5⟩ := hfit
    simp only [fitToA4Placement, gt_iff_lt, hd, if_false, Bool.false_eq_true] at *
    norm_num at *
    exact ⟨hL, h1, h2, h3, h4, h5⟩

/-- Witness for `fitToA4_spec` at a 400×200 canvas (landscape). -/
theorem fitToA4_spec_witness :
    ((fitToA4Placement 400 200).isLandscape = true ↔ 1 < (400 : ℚ) / 200) ∧
    ((fitToA4Placement 400 200).isLandscape = true →
      (fitToA4Placement 400 200).pageWidth = 297 ∧ (fitToA4Placement 400 200).pageHeight = 210) ∧
    ((fitToA4Placement 400 200).isLandscape = false →
      (fitToA4Placement 400 200).pageWidth = 210 ∧ (fitToA4Placement 400 200).pageHeight = 297) ∧
    0 < (fitToA4Placement 400 200).imgWidth ∧
    0 < (fitToA4Placement 400 200).imgHeight ∧
    (fitToA4Placement 400 200).imgWidth / (fitToA4Placement 400 200).imgHeight
      = (400 : ℚ) / 200 ∧
    (fitToA4Placement 400 200).imgWidth ≤ (fitToA4Placement 400 200).pageWidth - 2 * 10 ∧
    (fitToA4Placement 400 200).imgHeight ≤ (fitToA4Placement 400 200).pageHeight - 2 * 10 ∧
    (fitToA4Placement 400 200).x
      = ((fitToA4Placement 400 200).pageWidth - (fitToA4Placement 400 200).imgWidth) / 2 ∧
    (fitToA4Placement 400 200).y
      = ((fitToA4Placement 400 200).pageHeight - (fitToA4Placement 400 200).imgHeight) / 2 :=
  fitToA4_spec 400 200 (by decide) (by decide)

/-- The wrap loop never loses or reorders a word while no empty token is
pending: its lines flatten back to the words it was fed after the current
line. -/
lemma wrapLoop_flatten (measure : String → ℚ) (width : ℚ) :
    ∀ (ws line : List String), "" ∉ ws →
      (wrapLoop measure width ws line).flatten = line ++ ws := by
  intro ws
  induction ws with
  | nil => intro line _; simp [wrapLoop]
  | cons w ws ih =>
    intro line hne
    have hw : ¬ w = "" := by
      intro h
      subst h
      exact hne (List.mem_cons_self "" ws)
    have hne' : "" ∉ ws := fun hm => hne (List.mem_cons_of_mem w hm)
    simp only [wrapLoop]
    rw [if_neg hw]
    split
    · simp [ih, hne']
    · simp [ih, hne']

/-- When no pending word is the empty token and every prefix of the pending
words measures within the width, the wrap loop emits a single line. -/
lemma wrapLoop_single (measure : String → ℚ) (width : ℚ) :
    ∀ (ws line : List String), "" ∉ ws →
      (∀ k : Nat, measure (joinWords (line ++ ws.take k)) ≤ width) →
      wrapLoop measure width ws line = [line ++ ws] := by
  intro ws
  induction ws with
  | nil => intro line _ _; simp [wrapLoop]
  | cons w ws ih =>
    intro line hne hk
    have hw : ¬ w = "" := by
      intro h
      subst h
      exact hne (List.mem_cons_self "" ws)
    have hne' : "" ∉ ws := fun hm => hne (List.mem_cons_of_mem w hm)
    have h1 : measure (joinWords (line ++ [w])) ≤ width := by
      have := hk 1
      simpa using this
    simp only [wrapLoop]
    rw [if_neg hw, if_neg (fun hc => absurd h1 (not_le.mpr hc.1))]
    have hrest : ∀ k : Nat, measure (joinWords ((line ++ [w]) ++ ws.take k)) ≤ width := by
      intro k
      have := hk (k + 1)
      simpa [List.append_assoc] using this
    rw [ih (line ++ [w]) hne' hrest]
    simp

/-- **C4 counterexample** — the claim fails as stated on the code: the label
`" A"` (leading whitespace) splits to the token sequence `["", "A"]`, and the
loop condition `while (word = words.pop())` is falsy at the leading empty
token, so the render stops before placing ANY word: the single produced line
is empty, and the word `"A"` of the label's whitespace-delimited word sequence
is dropped (whatever the measure — here a measure under which the label is
well within 150 − 25, so the no-drop clause applies). -/
theorem wrapText_drops_leading_empty_token :
    wrapText (fun _ => (0 : ℚ)) (NODE_WIDTH - 25) ["", "A"] = [[]] ∧
    (wrapText (fun _ => (0 : ℚ)) (NODE_WIDTH - 25) ["", "A"]).flatten ≠ ["", "A"] ∧
    "A" ∉ (wrapText (fun _ => (0 : ℚ)) (NODE_WIDTH - 25) ["", "A"]).flatten := by
  refine ⟨rfl, by decide, by decide⟩

/-- **C4 (amended)** — word-wrap at width NODE_WIDTH − 25 = 125, for every
label whose whitespace-delimited token sequence contains no empty token (the
label neither begins nor ends with whitespace; leading whitespace makes the
loop's falsy exit drop every word, see the counterexample): when the label's
rendered width (under any measure that is monotone in appending words, as real
text measurement is) is at most 125 units, the label stays on exactly one
line; and in every case the produced lines concatenate back to the original
word sequence — breaks happen only at word boundaries and no word is
dropped. -/
theorem wrapText_spec (measure : String → ℚ) (words : List String)
    (hne : "" ∉ words) :
    ((∀ l₁ l₂ : List String, measure (joinWords l₁) ≤ measure (joinWords (l₁ ++ l₂))) →
      measure (joinWords words) ≤ NODE_WIDTH - 25 →
      wrapText measure (NODE_WIDTH - 25) words = [words]) ∧
    (wrapText measure (NODE_WIDTH - 25) words).flatten = words := by
  constructor
  · intro hmono hw
    unfold wrapText
    have hpre : ∀ k : Nat, measure (joinWords ([] ++ words.take k)) ≤ NODE_WIDTH - 25 := by
      intro k
      calc measure (joinWords ([] ++ words.take k))
          ≤ measure (joinWords (([] ++ words.take k) ++ words.drop k)) := hmono _ _
        _ = measure (joinWords words) := by simp
        _ ≤ NODE_WIDTH - 25 := hw
    simpa using wrapLoop_single measure (NODE_WIDTH - 25) words [] hne hpre
  · unfold wrapText
    simpa using wrapLoop_flatten measure (NODE_WIDTH - 25) words [] hne

/-- Witness for `wrapText_spec` at a concrete measure and word list. -/
theorem wrapText_spec_witness :
    wrapText (fun _ => (0 : ℚ)) (NODE_WIDTH - 25) ["plot", "flow"] = [["plot", "flow"]] ∧
    (wrapText (fun _ => (0 : ℚ)) (NODE_WIDTH - 25) ["plot", "flow"]).flatten
      = ["plot", "flow"] :=
  ⟨(wrapText_spec (fun _ => (0 : ℚ)) ["plot", "flow"] (by decide)).1
      (fun _ _ => le_refl 0) (by norm_num [joinWords, NODE_WIDTH]),
   (wrapText_spec (fun _ => (0 : ℚ)) ["plot", "flow"] (by decide)).2⟩

/-- Looking up the dragged node after the position write yields the old entry
with the new coordinates. -/
lemma lookup_dragged (nodes : List (String × LayoutNodeState)) (A : String) (ex ey : ℚ) :
    (nodes.map
        (fun p => if p.1 = A then (p.1, { p.2 with x := ex, y := ey }) else p)).lookup A
      = (nodes.lookup A).map (fun n => { n with x := ex, y := ey }) := by
  induction nodes with
  | nil => rfl
  | cons p ps ih =>
    obtain ⟨k, v⟩ := p
    simp only [List.map_cons]
    by_cases h : k = A
    · subst h
      rw [if_pos rfl]
      simp [List.lookup, ih]
    · rw [if_neg h]
      have hne : (A == k) = false := beq_eq_false_iff_ne.mpr (Ne.symm h)
      simp [List.lookup, hne, ih]

/-- **C10** — after a drag event moves node A to (ex, ey): A's center reads
back as (ex, ey); every rendered edge is rewritten by the per-edge update;
an edge not incident to A is left completely unchanged; an edge incident to A
becomes the straight 2-point line between the current endpoint centers (one of
which is A's new center), and its rendered label, when it has one, moves to
the midpoint of those centers. -/
theorem dragNode_spec (g : RenderedGraph) (A : String) (ex ey : ℚ)
    (hA : (g.nodes.lookup A).isSome = true) :
    nodeCenter (dragNode g A ex ey).nodes A = ⟨ex, ey⟩ ∧
    (dragNode g A ex ey).edges = g.edges.map (dragEdgeUpdate (dragNode g A ex ey).nodes A) ∧
    (∀ e ∈ g.edges, e.v ≠ A ∧ e.w ≠ A → dragEdgeUpdate (dragNode g A ex ey).nodes A e = e) ∧
    (∀ e ∈ g.edges, (e.v = A ∨ e.w = A) →
      (dragEdgeUpdate (dragNode g A ex ey).nodes A e).points =
        [nodeCenter (dragNode g A ex ey).nodes e.v,
         nodeCenter (dragNode g A ex ey).nodes e.w] ∧
      (nodeCenter (dragNode g A ex ey).nodes e.v = ⟨ex, ey⟩ ∨
       nodeCenter (dragNode g A ex ey).nodes e.w = ⟨ex, ey⟩) ∧
      (∀ L, e.label = some L →
        (dragEdgeUpdate (dragNode g A ex ey).nodes A e).label =
          some { L with
                 x := ((nodeCenter (dragNode g A ex ey).nodes e.v).x +
                       (nodeCenter (dragNode g A ex ey).nodes e.w).x) / 2
                 y := ((nodeCenter (dragNode g A ex ey).nodes e.v).y +
                       (nodeCenter (dragNode g A ex ey).nodes e.w).y) / 2 })) := by
  have hcenter : nodeCenter (dragNode g A ex ey).nodes A = ⟨ex, ey⟩ := by
    unfold nodeCenter dragNode
    rw [lookup_dragged]
    obtain ⟨n, hn⟩ := Option.isSome_iff_exists.mp hA
    rw [hn]
    rfl
  refine ⟨hcenter, rfl, ?_, ?_⟩
  · intro e _ hni
    unfold dragEdgeUpdate
    rw [if_neg]
    rintro (hv | hw)
    · exact hni.1 hv
    · exact hni.2 hw
  · intro e _ hinc
    unfold dragEdgeUpdate
    rw [if_pos hinc]
    refine ⟨rfl, ?_, ?_⟩
    · rcases hinc with hv | hw
      · left; rw [hv]; exact hcenter
      · right; rw [hw]; exact hcenter
    · intro L hL
      simp [hL]

/-- Witness for `dragNode_spec` on the concrete `dragExample`, dragging node
a to (30, 40): a's center updates, and the non-incident edge b→c (the second
edge) is untouched. -/
theorem dragNode_spec_witness :
    nodeCenter (dragNode dragExample "a" 30 40).nodes "a" = ⟨30, 40⟩ ∧
    dragEdgeUpdate (dragNode dragExample "a" 30 40).nodes "a"
        (dragExample.edges.get ⟨1, by decide⟩)
      = dragExample.edges.get ⟨1, by decide⟩ :=
  ⟨(dragNode_spec dragExample "a" 30 40 (by decide)).1,
   (dragNode_spec dragExample "a" 30 40 (by decide)).2.2.1
     (dragExample.edges.get ⟨1, by decide⟩) (by decide) (by decide)⟩


/-- The auto-fit transform for a 150×60 graph in an 800×600 container:
scale = min(720/150, 520/60, 1.5) = 1.5, centered. -/
lemma autoFit_example : autoFitTransform 800 600 150 60 = some ⟨575 / 2, 255, 3 / 2⟩ := by
  unfold autoFitTransform
  rw [if_pos (by norm_num)]
  rw [show min ((800 - 80 : ℚ) / 150) ((600 - 80 : ℚ) / 60) = 24 / 5 by
        rw [min_eq_left (by norm_num)]; norm_num,
      min_eq_right (by norm_num)]
  norm_num

/-- **C9** — evaluation at the failing input: with a one-node diagram laid
out at 150×60 in an 800×600 container, the first paint auto-fits the view to
translate(575/2, 255) scale(3/2); the user then pans/zooms to
translate(123, 45) scale(2); a style-only change (process font size 14 → 16,
same Diagram value) re-runs the main effect — `customNodeStyles` is in its
dependency list — which re-installs the auto-fit transform and discards the
user's ViewTransform.  The claim (and the spec's normative sentence) says a
pure restyle must preserve the user's ViewTransform; the code resets it. -/
theorem restyle_resets_viewTransform :
    (renderFlowChart (fun _ => (150, 60)) 800 600
        (userSetTransform
          (renderFlowChart (fun _ => (150, 60)) 800 600
            ⟨none, none⟩ (some styleFlow) defaultNodeStyles)
          ⟨123, 45, 2⟩)
        (some styleFlow)
        (handleStyleChange defaultNodeStyles .process (.fontSize 16))).viewTransform
      = some ⟨575 / 2, 255, 3 / 2⟩ ∧
    (renderFlowChart (fun _ => (150, 60)) 800 600
        (userSetTransform
          (renderFlowChart (fun _ => (150, 60)) 800 600
            ⟨none, none⟩ (some styleFlow) defaultNodeStyles)
          ⟨123, 45, 2⟩)
        (some styleFlow)
        (handleStyleChange defaultNodeStyles .process (.fontSize 16))).viewTransform
      ≠ some ⟨123, 45, 2⟩ := by
  have hs1 : renderFlowChart (fun _ => ((150 : ℚ), (60 : ℚ))) 800 600
      ⟨none, none⟩ (some styleFlow) defaultNodeStyles
      = ⟨some (some styleFlow, defaultNodeStyles), some ⟨575 / 2, 255, 3 / 2⟩⟩ := by
    unfold renderFlowChart
    rw [if_neg (by simp)]
    simp only [styleFlow]
    rw [if_neg (by decide)]
    simp [autoFit_example]
  have hs3 : renderFlowChart (fun _ => ((150 : ℚ), (60 : ℚ))) 800 600
      (userSetTransform
        (renderFlowChart (fun _ => ((150 : ℚ), (60 : ℚ))) 800 600
          ⟨none, none⟩ (some styleFlow) defaultNodeStyles)
        ⟨123, 45, 2⟩)
      (some styleFlow)
      (handleStyleChange defaultNodeStyles .process (.fontSize 16))
      = ⟨some (some styleFlow, handleStyleChange defaultNodeStyles .process (.fontSize 16)),
         some ⟨575 / 2, 255, 3 / 2⟩⟩ := by
    rw [hs1]
    unfold userSetTransform renderFlowChart
    rw [if_neg (by decide)]
    simp only [styleFlow]
    rw [if_neg (by decide)]
    simp [autoFit_example]
  rw [hs3]
  refine ⟨rfl, ?_⟩
  intro hcontra
  have := Option.some.inj hcontra
  have h123 : (575 : ℚ) / 2 = 123 := congrArg ViewTransform.translateX this
  norm_num at h123

/-- `hasNode` is membership of the id among the graph's node keys. -/
lemma hasNode_iff (g : DagreGraph) (id : String) :
    g.hasNode id = true ↔ id ∈ g.nodes.map Prod.fst := by
  simp [DagreGraph.hasNode, List.any_eq_true, List.mem_map]

/-- Registering nodes with fresh, pairwise-distinct ids appends exactly their
ids to the key list and leaves the edge list alone. -/
lemma buildNodes_fold :
    ∀ (ns : List NodeData) (g : DagreGraph),
      (∀ n ∈ ns, g.hasNode n.id = false) →
      (ns.map NodeData.id).Nodup →
      ((ns.foldl (fun g n =>
          g.setNode n.id ⟨n.label, NODE_WIDTH, NODE_HEIGHT, n.type, n.description⟩) g).nodes.map
            Prod.fst
        = g.nodes.map Prod.fst ++ ns.map NodeData.id) ∧
      (ns.foldl (fun g n =>
          g.setNode n.id ⟨n.label, NODE_WIDTH, NODE_HEIGHT, n.type, n.description⟩) g).edges
        = g.edges := by
  intro ns
  induction ns with
  | nil => intro g _ _; simp
  | cons n ns ih =>
    intro g hfresh hnodup
    simp only [List.foldl_cons]
    have hn : g.hasNode n.id = false := hfresh n (List.mem_cons_self n ns)
    have hset : g.setNode n.id ⟨n.label, NODE_WIDTH, NODE_HEIGHT, n.type, n.description⟩
        = { g with nodes :=
              g.nodes ++ [(n.id, some ⟨n.label, NODE_WIDTH, NODE_HEIGHT, n.type, n.description⟩)] } := by
      unfold DagreGraph.setNode
      rw [if_neg (by simp [hn])]
    have hnotin : n.id ∉ ns.map NodeData.id := (List.nodup_cons.mp (by simpa using hnodup)).1
    have hnodup' : (ns.map NodeData.id).Nodup := (List.nodup_cons.mp (by simpa using hnodup)).2
    rw [hset]
    have hfresh' : ∀ m ∈ ns,
        (({ g with nodes :=
            g.nodes ++ [(n.id, some ⟨n.label, NODE_WIDTH, NODE_HEIGHT, n.type, n.description⟩)] }
          : DagreGraph)).hasNode m.id = false := by
      intro m hm
      have hne : n.id ≠ m.id := by
        intro he
        exact hnotin (he ▸ List.mem_map_of_mem NodeData.id hm)
      have h1 : g.hasNode m.id = false := hfresh m (List.mem_cons_of_mem n hm)
      unfold DagreGraph.hasNode at h1 ⊢
      simp only [List.any_append, h1, Bool.false_or, List.any_cons, List.any_nil,
        Bool.or_false]
      simpa using hne
    obtain ⟨ih1, ih2⟩ := ih _ hfresh' hnodup'
    refine ⟨?_, ih2⟩
    rw [ih1]
    simp

/-- Registering edges whose endpoints are present and whose (source, target)
pairs are fresh and pairwise distinct appends exactly those pairs to the edge
key list and leaves the node list alone. -/
lemma buildEdges_fold :
    ∀ (es : List EdgeData) (g : DagreGraph),
      (∀ e ∈ es, g.hasNode e.source = true ∧ g.hasNode e.target = true) →
      (∀ e ∈ es, g.hasEdge e.source e.target = false) →
      ((es.map (fun e => (e.source, e.target))).Nodup) →
      ((es.foldl (fun g e => g.setEdge e.source e.target ⟨e.label⟩) g).nodes = g.nodes) ∧
      ((es.foldl (fun g e => g.setEdge e.source e.target ⟨e.label⟩) g).edges.map Prod.fst
        = g.edges.map Prod.fst ++ es.map (fun e => (e.source, e.target))) := by
  intro es
  induction es with
  | nil => intro g _ _ _; simp
  | cons e es ih =>
    intro g hnodes hfresh hnodup
    simp only [List.foldl_cons]
    have hes : g.hasNode e.source = true := (hnodes e (List.mem_cons_self e es)).1
    have het : g.hasNode e.target = true := (hnodes e (List.mem_cons_self e es)).2
    have hne : g.hasEdge e.source e.target = false := hfresh e (List.mem_cons_self e es)
    have hset : g.setEdge e.source e.target ⟨e.label⟩
        = { g with edges := g.edges ++ [((e.source, e.target), ⟨e.label⟩)] } := by
      unfold DagreGraph.setEdge DagreGraph.ensureNode
      rw [if_pos hes, if_pos het, if_neg (by simp [hne])]
    rw [hset]
    have hcons : ((e :: es).map (fun e => (e.source, e.target))).Nodup →
        ((e.source, e.target) :: es.map (fun e => (e.source, e.target))).Nodup := by
      simp only [List.map_cons]
      exact id
    have hpair_notin : (e.source, e.target) ∉ es.map (fun e => (e.source, e.target)) :=
      (List.nodup_cons.mp (hcons hnodup)).1
    have hnodup' : (es.map (fun e => (e.source, e.target))).Nodup :=
      (List.nodup_cons.mp (hcons hnodup)).2
    have hnodes' : ∀ e' ∈ es,
        (({ g with edges := g.edges ++ [((e.source, e.target), ⟨e.label⟩)] }
          : DagreGraph)).hasNode e'.source = true ∧
        (({ g with edges := g.edges ++ [((e.source, e.target), ⟨e.label⟩)] }
          : DagreGraph)).hasNode e'.target = true :=
      fun e' he' => hnodes e' (List.mem_cons_of_mem e he')
    have hfresh' : ∀ e' ∈ es,
        (({ g with edges := g.edges ++ [((e.source, e.target), ⟨e.label⟩)] }
          : DagreGraph)).hasEdge e'.source e'.target = false := by
      intro e' he'
      have h1 : g.hasEdge e'.source e'.target = false := hfresh e' (List.mem_cons_of_mem e he')
      have hne2 : (e.source, e.target) ≠ (e'.source, e'.target) := by
        intro hEq
        exact hpair_notin (hEq ▸ List.mem_map_of_mem (fun e => (e.source, e.target)) he')
      unfold DagreGraph.hasEdge at h1 ⊢
      simp only [List.any_append, h1, Bool.false_or, List.any_cons, List.any_nil,
        Bool.or_false]
      simpa using hne2
    obtain ⟨ih1, ih2⟩ := ih _ hnodes' hfresh' hnodup'
    refine ⟨ih1, ?_⟩
    rw [ih2]
    simp

/-- **C3 counterexample** — the claim fails as stated: `dupEdgeFlow` is valid
per the stated invariants (unique node ids, resolving endpoints) and has
M = 2 edges, but dagre's graph is not a multigraph, so `setEdge` overwrites
the repeated (a, b) pair and the adapter yields only 1 LayoutEdge. -/
theorem buildGraph_collapses_duplicate_edges :
    validDiagram dupEdgeFlow ∧
    dupEdgeFlow.edges.length = 2 ∧
    (layoutEdges (fun _ => []) (buildGraph dupEdgeFlow)).length = 1 := by
  refine ⟨by decide, rfl, by decide⟩

/-- **C3 (amended)** — for every valid Diagram whose edges moreover have
pairwise-distinct (source, target) pairs, the Layout Adapter produces exactly
N LayoutNodes and M LayoutEdges, and the LayoutNode ids are exactly the input
node ids (even as an ordered list). -/
theorem layout_adapter_counts (d : FlowData) (pos : String → Point)
    (route : String × String → List Point)
    (hvalid : validDiagram d)
    (hpairs : (d.edges.map (fun e => (e.source, e.target))).Nodup) :
    (layoutNodes pos (buildGraph d)).length = d.nodes.length ∧
    (layoutEdges route (buildGraph d)).length = d.edges.length ∧
    (layoutNodes pos (buildGraph d)).map LayoutNode.id = d.nodes.map NodeData.id := by
  obtain ⟨hnodup, hendpoints⟩ := hvalid
  have h1 := buildNodes_fold d.nodes ⟨[], []⟩ (fun n _ => rfl) hnodup
  have hkeys : (d.nodes.foldl (fun g n =>
      g.setNode n.id ⟨n.label, NODE_WIDTH, NODE_HEIGHT, n.type, n.description⟩)
        (⟨[], []⟩ : DagreGraph)).nodes.map Prod.fst = d.nodes.map NodeData.id := by
    simpa using h1.1
  have hedges1 : (d.nodes.foldl (fun g n =>
      g.setNode n.id ⟨n.label, NODE_WIDTH, NODE_HEIGHT, n.type, n.description⟩)
        (⟨[], []⟩ : DagreGraph)).edges = [] := by
    simpa using h1.2
  have hnodes' : ∀ e ∈ d.edges,
      (d.nodes.foldl (fun g n =>
        g.setNode n.id ⟨n.label, NODE_WIDTH, NODE_HEIGHT, n.type, n.description⟩)
          (⟨[], []⟩ : DagreGraph)).hasNode e.source = true ∧
      (d.nodes.foldl (fun g n =>
        g.setNode n.id ⟨n.label, NODE_WIDTH, NODE_HEIGHT, n.type, n.description⟩)
          (⟨[], []⟩ : DagreGraph)).hasNode e.target = true := by
    intro e he
    constructor
    · rw [hasNode_iff, hkeys]
      exact (hendpoints e he).1
    · rw [hasNode_iff, hkeys]
      exact (hendpoints e he).2
  have hfresh : ∀ e ∈ d.edges,
      (d.nodes.foldl (fun g n =>
        g.setNode n.id ⟨n.label, NODE_WIDTH, NODE_HEIGHT, n.type, n.description⟩)
          (⟨[], []⟩ : DagreGraph)).hasEdge e.source e.target = false := by
    intro e _
    unfold DagreGraph.hasEdge
    rw [hedges1]
    rfl
  have h2 := buildEdges_fold d.edges _ hnodes' hfresh hpairs
  have hbuild : buildGraph d = d.edges.foldl (fun g e => g.setEdge e.source e.target ⟨e.label⟩)
      (d.nodes.foldl (fun g n =>
        g.setNode n.id ⟨n.label, NODE_WIDTH, NODE_HEIGHT, n.type, n.description⟩)
          (⟨[], []⟩ : DagreGraph)) := rfl
  refine ⟨?_, ?_, ?_⟩
  · simp only [layoutNodes, List.length_map, hbuild, h2.1]
    have := congrArg List.length hkeys
    simpa using this
  · have h22 := h2.2
    rw [hedges1] at h22
    simp only [List.map_nil, List.nil_append] at h22
    simp only [layoutEdges, List.length_map, hbuild]
    have := congrArg List.length h22
    simpa using this
  · simp only [layoutNodes, hbuild, h2.1, List.map_map]
    simpa [Function.comp] using hkeys

/-- Witness for `layout_adapter_counts` on the concrete valid `simpleFlow`. -/
theorem layout_adapter_counts_witness :
    (layoutNodes (fun _ => ⟨0, 0⟩) (buildGraph simpleFlow)).length = simpleFlow.nodes.length ∧
    (layoutEdges (fun _ => []) (buildGraph simpleFlow)).length = simpleFlow.edges.length ∧
    (layoutNodes (fun _ => ⟨0, 0⟩) (buildGraph simpleFlow)).map LayoutNode.id
      = simpleFlow.nodes.map NodeData.id :=
  layout_adapter_counts simpleFlow (fun _ => ⟨0, 0⟩) (fun _ => []) (by decide) (by decide)

/-- A successful node pass implies no node is code-invalid, and the collected
ids are exactly the declared ids in order. -/
lemma validateNodes_ok_shape :
    ∀ (ns : List RawNode) (ids : List String), validateNodes ns = .ok ids →
      ns.any nodeInvalidCode = false ∧ ids = ns.filterMap RawNode.id := by
  intro ns
  induction ns with
  | nil =>
    intro ids h
    simp only [validateNodes] at h
    cases h
    simp
  | cons n ns ih =>
    intro ids h
    obtain ⟨oi, ol, ot, od⟩ := n
    cases oi with
    | none => simp [validateNodes] at h
    | some i =>
      cases ol with
      | none => simp [validateNodes] at h
      | some l =>
        cases ot with
        | none => simp [validateNodes] at h
        | some t =>
          simp only [validateNodes] at h
          by_cases hct : allowedNodeTypes.contains t = true
          · rw [if_pos hct] at h
            cases hrec : validateNodes ns with
            | error m => rw [hrec] at h; simp at h
            | ok ids' =>
              rw [hrec] at h
              obtain ⟨hany, hids⟩ := ih ids' hrec
              cases h
              constructor
              · show (nodeInvalidCode ⟨some i, some l, some t, od⟩
                    || ns.any nodeInvalidCode) = false
                rw [hany, Bool.or_false]
                show (!allowedNodeTypes.contains t) = false
                rw [hct]
                rfl
              · simp [List.filterMap_cons, hids]
          · rw [if_neg hct] at h
            simp at h

/-- A code-invalid node makes the node pass throw. -/
lemma validateNodes_error_of_any (ns : List RawNode)
    (h : ns.any nodeInvalidCode = true) :
    ∃ msg, validateNodes ns = .error msg := by
  cases hv : validateNodes ns with
  | error m => exact ⟨m, rfl⟩
  | ok ids =>
    have hno := (validateNodes_ok_shape ns ids hv).1
    rw [hno] at h
    simp at h

/-- An invalid or unresolved edge makes the edge pass throw. -/
lemma validateEdges_error_of_any :
    ∀ (es : List RawEdge) (ids : List String), es.any (edgeInvalid ids) = true →
      ∃ msg, validateEdges ids es = .error msg := by
  intro es
  induction es with
  | nil => intro ids h; simp at h
  | cons e es ih =>
    intro ids h
    obtain ⟨os, ot, ol⟩ := e
    cases os with
    | none => exact ⟨"Invalid edge data: Each edge must have a 'source' and 'target'.", rfl⟩
    | some s =>
      cases ot with
      | none => exact ⟨"Invalid edge data: Each edge must have a 'source' and 'target'.", rfl⟩
      | some t =>
        by_cases hs : ids.contains s = true
        · by_cases ht : ids.contains t = true
          · have hh : edgeInvalid ids ⟨some s, some t, ol⟩ = false := by
              show (!ids.contains s || !ids.contains t) = false
              rw [hs, ht]
              rfl
            rw [List.any_cons, hh, Bool.false_or] at h
            obtain ⟨m, hm⟩ := ih ids h
            refine ⟨m, ?_⟩
            simp only [validateEdges]
            rw [if_pos hs, if_pos ht]
            exact hm
          · refine ⟨"Data integrity issue: Edge references a non-existent target node with ID '"
                ++ t ++ "'.", ?_⟩
            simp only [validateEdges]
            rw [if_pos hs, if_neg ht]
        · refine ⟨"Data integrity issue: Edge references a non-existent source node with ID '"
              ++ s ++ "'.", ?_⟩
          simp only [validateEdges]
          rw [if_neg hs]

/-- A payload violating the code's validation contract is rejected by the
validation block. -/
lemma validatePayload_error_of_violation (resp : RawResponse)
    (h : contractViolation resp = true) :
    ∃ msg, validatePayload resp = .error msg := by
  obtain ⟨oflow, ofns⟩ := resp
  cases oflow with
  | none => simp [contractViolation] at h
  | some flow =>
    cases ofns with
    | none =>
      exact ⟨"Invalid data structure: The AI response is missing key components or has incorrect types.",
        rfl⟩
    | some fns =>
      simp only [contractViolation] at h
      rw [Bool.or_eq_true] at h
      cases h with
      | inl hn =>
        obtain ⟨m, hm⟩ := validateNodes_error_of_any flow.nodes hn
        exact ⟨m, by simp [validatePayload, hm]⟩
      | inr he =>
        cases hv : validateNodes flow.nodes with
        | error m => exact ⟨m, by simp [validatePayload, hv]⟩
        | ok ids =>
          have hids : ids = flow.nodes.filterMap RawNode.id :=
            (validateNodes_ok_shape _ _ hv).2
          have he' : flow.edges.any (edgeInvalid ids) = true := by
            rw [hids]
            exact he
          obtain ⟨m, hm⟩ := validateEdges_error_of_any flow.edges ids he'
          exact ⟨m, by simp [validatePayload, hv, hm]⟩

/-- One loop iteration on a successful attempt. -/
lemma genLoop_succ_ok (J : String → Option String) (provider : Nat → AttemptOutcome)
    (fuel attempt delayMs : Nat) (delays : List Nat) (p : RawResponse)
    (h : attemptStep (provider attempt) = .ok p) :
    genLoop J provider (fuel + 1) attempt delayMs delays
      = ⟨.ok p, delays.reverse, attempt + 1⟩ := by
  unfold genLoop
  rw [h]

/-- One loop iteration on a failed attempt. -/
lemma genLoop_succ_error (J : String → Option String) (provider : Nat → AttemptOutcome)
    (fuel attempt delayMs : Nat) (delays : List Nat) (m : String)
    (h : attemptStep (provider attempt) = .error m) :
    genLoop J provider (fuel + 1) attempt delayMs delays
      = if messageIncludes429 m && decide (attempt + 1 < maxRetries) then
          genLoop J provider fuel (attempt + 1) (delayMs * 2) (delayMs :: delays)
        else ⟨.error (finalErrorMessage J m), delays.reverse, attempt + 1⟩ := by
  show (match attemptStep (provider attempt) with
    | .ok p => (⟨.ok p, delays.reverse, attempt + 1⟩ : RunResult)
    | .error msg =>
      if messageIncludes429 msg && decide (attempt + 1 < maxRetries) then
        genLoop J provider fuel (attempt + 1) (delayMs * 2) (delayMs :: delays)
      else ⟨.error (finalErrorMessage J msg), delays.reverse, attempt + 1⟩) = _
  rw [h]

/-- When every attempt fails, the loop ends in an error whatever the fuel. -/
lemma genLoop_error_of_all (J : String → Option String) (provider : Nat → AttemptOutcome)
    (hall : ∀ i, ∃ m, attemptStep (provider i) = .error m) :
    ∀ (fuel attempt delayMs : Nat) (delays : List Nat),
      ∃ msg, (genLoop J provider fuel attempt delayMs delays).result = .error msg := by
  intro fuel
  induction fuel with
  | zero => intro attempt delayMs delays; exact ⟨_, rfl⟩
  | succ fuel ih =>
    intro attempt delayMs delays
    obtain ⟨m, hm⟩ := hall attempt
    rw [genLoop_succ_error J provider fuel attempt delayMs delays m hm]
    split
    · exact ih _ _ _
    · exact ⟨_, rfl⟩

/-- **C1 (amended)** — for every provider payload in which some node lacks a
STRING id, label or type, or has a type outside {start, process, decision,
end}, or in which some edge's source or target does not resolve to a declared
node id, `generateFlowFromScript` never returns the payload as a Diagram — it
throws (before any layout can happen) — and after `handleAnalyzeScript` the
diagram state `flowData` is null, whatever the runtime's JSON parsing of
error payloads does.  (The claim's additional NON-emptiness requirement on id
and label is not enforced by the code; see the counterexample.) -/
theorem generateFlow_rejects_contract_violations (J : String → Option String)
    (resp : RawResponse) (st : AppState)
    (script : String) (hscript : isBlank script = false)
    (h : contractViolation resp = true) :
    (∃ msg, (generateFlowFromScript J (fun _ => .payload resp)).result = .error msg) ∧
    (handleAnalyzeScript st script J (fun _ => .payload resp)).flowData = none := by
  have hval := validatePayload_error_of_violation resp h
  have hall : ∀ i : Nat,
      ∃ m, attemptStep ((fun _ => AttemptOutcome.payload resp) i) = .error m := by
    intro i
    obtain ⟨m, hm⟩ := hval
    exact ⟨m, hm⟩
  have hrun := genLoop_error_of_all J _ hall maxRetries 0 2000 []
  refine ⟨hrun, ?_⟩
  obtain ⟨msg, hmsg⟩ := hrun
  unfold handleAnalyzeScript
  rw [if_neg (by simp [hscript])]
  rw [show (generateFlowFromScript J (fun _ => AttemptOutcome.payload resp)).result
        = Except.error msg from hmsg]

/-- Witness for `generateFlow_rejects_contract_violations` at the unsupported
node type "banana". -/
theorem generateFlow_rejects_contract_violations_witness :
    (∃ msg, (generateFlowFromScript (fun _ => none)
        (fun _ => .payload badTypeResponse)).result = .error msg) ∧
    (handleAnalyzeScript initialAppState "plot script" (fun _ => none)
        (fun _ => .payload badTypeResponse)).flowData = none :=
  generateFlow_rejects_contract_violations (fun _ => none) badTypeResponse initialAppState
    "plot script" (by decide) (by decide)

/-- **C1 counterexample** — the claim as stated is false on the code: the
payload whose single node carries the EMPTY string as id and label (so it
"lacks a non-empty string id" and "lacks a non-empty string label") passes
validation — the code only checks `typeof === 'string'` — so
`generateFlowFromScript` returns it as a Diagram instead of throwing, and the
diagram state is non-null after the call. -/
theorem generateFlow_accepts_empty_id_node :
    specContractViolation emptyIdResponse = true ∧
    (generateFlowFromScript (fun _ => none) (fun _ => .payload emptyIdResponse)).result
      = .ok emptyIdResponse ∧
    (handleAnalyzeScript initialAppState "script" (fun _ => none)
        (fun _ => .payload emptyIdResponse)).flowData ≠ none := by
  refine ⟨by decide, rfl, by decide⟩

/-- **C2** — the retry policy of `generateFlowFromScript`, for every provider
and every JSON-parse behavior `J` of the runtime: at most 3 provider attempts;
the inserted delays can only be [] / [2000] / [2000, 4000] ms (2000 before the
2nd attempt, doubled to 4000 before the 3rd); a delay is inserted only after a
rate-limit failure; ANY non-rate-limit failure — on attempt 1, on attempt 2
after one rate-limited attempt, or on attempt 3 after two — surfaces
immediately as the error `finalErrorMessage J m` carrying the underlying
message (best-effort unwrapped through the embedded-JSON match), as does
exhaustion by a third rate-limited failure; and after rate-limit failures on
attempts 1 and 2, a success on attempt 3 returns the successful payload with
total inserted delay ≥ 2000 + 4000. -/
theorem generateFlow_retry_policy (J : String → Option String)
    (provider : Nat → AttemptOutcome) :
    (generateFlowFromScript J provider).attemptsUsed ≤ 3 ∧
    ((generateFlowFromScript J provider).delays = [] ∨
      (generateFlowFromScript J provider).delays = [2000] ∨
      (generateFlowFromScript J provider).delays = [2000, 4000]) ∧
    ((generateFlowFromScript J provider).delays ≠ [] →
      ∃ m, attemptStep (provider 0) = .error m ∧ messageIncludes429 m = true) ∧
    ((generateFlowFromScript J provider).delays = [2000, 4000] →
      ∃ m, attemptStep (provider 1) = .error m ∧ messageIncludes429 m = true) ∧
    (∀ m, attemptStep (provider 0) = .error m → messageIncludes429 m = false →
      generateFlowFromScript J provider = ⟨.error (finalErrorMessage J m), [], 1⟩) ∧
    (∀ m₀ m₁, attemptStep (provider 0) = .error m₀ → messageIncludes429 m₀ = true →
      attemptStep (provider 1) = .error m₁ → messageIncludes429 m₁ = false →
      generateFlowFromScript J provider
        = ⟨.error (finalErrorMessage J m₁), [2000], 2⟩) ∧
    (∀ m₀ m₁, attemptStep (provider 0) = .error m₀ → messageIncludes429 m₀ = true →
      attemptStep (provider 1) = .error m₁ → messageIncludes429 m₁ = true →
      (∀ p, attemptStep (provider 2) = .ok p →
        (generateFlowFromScript J provider).result = .ok p ∧
        (generateFlowFromScript J provider).delays = [2000, 4000] ∧
        2000 + 4000 ≤ (generateFlowFromScript J provider).delays.sum) ∧
      (∀ m₂, attemptStep (provider 2) = .error m₂ →
        generateFlowFromScript J provider
          = ⟨.error (finalErrorMessage J m₂), [2000, 4000], 3⟩)) := by
  have hstart : generateFlowFromScript J provider = genLoop J provider (2 + 1) 0 2000 [] := rfl
  cases h0 : attemptStep (provider 0) with
  | ok p0 =>
    have hrun : generateFlowFromScript J provider = ⟨.ok p0, [], 1⟩ := by
      rw [hstart, genLoop_succ_ok J provider 2 0 2000 [] p0 h0]
      rfl
    refine ⟨by simp [hrun], by left; rw [hrun], ?_, ?_, ?_, ?_, ?_⟩
    · intro hne
      rw [hrun] at hne
      simp at hne
    · intro heq
      rw [hrun] at heq
      simp at heq
    · intro m hm _
      simp at hm
    · intro m₀ m₁ hm0 _ _ _
      simp at hm0
    · intro m₀ m₁ hm0 _ _ _
      simp at hm0
  | error m0 =>
    cases hb0 : messageIncludes429 m0 with
    | false =>
      have hcond : ¬ ((messageIncludes429 m0 && decide (0 + 1 < maxRetries)) = true) := by
        rw [hb0]
        decide
      have hrun : generateFlowFromScript J provider
          = ⟨.error (finalErrorMessage J m0), [], 1⟩ := by
        rw [hstart, genLoop_succ_error J provider 2 0 2000 [] m0 h0, if_neg hcond]
        rfl
      refine ⟨by simp [hrun], by left; rw [hrun], ?_, ?_, ?_, ?_, ?_⟩
      · intro hne
        rw [hrun] at hne
        simp at hne
      · intro heq
        rw [hrun] at heq
        simp at heq
      · intro m hm _
        injection hm with h'
        subst h'
        exact hrun
      · intro m₀ m₁ hm0 hb0' _ _
        injection hm0 with h'
        subst h'
        rw [hb0] at hb0'
        simp at hb0'
      · intro m₀ m₁ hm0 hb0' _ _
        injection hm0 with h'
        subst h'
        rw [hb0] at hb0'
        simp at hb0'
    | true =>
      have hcond0 : (messageIncludes429 m0 && decide (0 + 1 < maxRetries)) = true := by
        rw [hb0]
        decide
      have hstep0 : generateFlowFromScript J provider
          = genLoop J provider (1 + 1) 1 4000 [2000] := by
        rw [hstart, genLoop_succ_error J provider 2 0 2000 [] m0 h0, if_pos hcond0]
      cases h1 : attemptStep (provider 1) with
      | ok p1 =>
        have hrun : generateFlowFromScript J provider = ⟨.ok p1, [2000], 2⟩ := by
          rw [hstep0, genLoop_succ_ok J provider 1 1 4000 [2000] p1 h1]
          rfl
        refine ⟨by simp [hrun], by right; left; rw [hrun], ?_, ?_, ?_, ?_, ?_⟩
        · intro _
          exact ⟨m0, rfl, hb0⟩
        · intro heq
          rw [hrun] at heq
          simp at heq
        · intro m hm hf
          injection hm with h'
          subst h'
          rw [hb0] at hf
          simp at hf
        · intro m₀ m₁ _ _ hm1 _
          simp at hm1
        · intro m₀ m₁ _ _ hm1 _
          simp at hm1
      | error m1 =>
        cases hb1 : messageIncludes429 m1 with
        | false =>
          have hcond1 : ¬ ((messageIncludes429 m1 && decide (1 + 1 < maxRetries)) = true) := by
            rw [hb1]
            decide
          have hrun : generateFlowFromScript J provider
              = ⟨.error (finalErrorMessage J m1), [2000], 2⟩ := by
            rw [hstep0, genLoop_succ_error J provider 1 1 4000 [2000] m1 h1, if_neg hcond1]
            rfl
          refine ⟨by simp [hrun], by right; left; rw [hrun], ?_, ?_, ?_, ?_, ?_⟩
          · intro _
            exact ⟨m0, rfl, hb0⟩
          · intro heq
            rw [hrun] at heq
            simp at heq
          · intro m hm hf
            injection hm with h'
            subst h'
            rw [hb0] at hf
            simp at hf
          · intro m₀ m₁ _ _ hm1 _
            injection hm1 with h'
            subst h'
            exact hrun
          · intro m₀ m₁ _ _ hm1 hb1'
            injection hm1 with h'
            subst h'
            rw [hb1] at hb1'
            simp at hb1'
        | true =>
          have hcond1 : (messageIncludes429 m1 && decide (1 + 1 < maxRetries)) = true := by
            rw [hb1]
            decide
          have hstep1 : generateFlowFromScript J provider
              = genLoop J provider (0 + 1) 2 8000 [4000, 2000] := by
            rw [hstep0, genLoop_succ_error J provider 1 1 4000 [2000] m1 h1, if_pos hcond1]
          cases h2 : attemptStep (provider 2) with
          | ok p2 =>
            have hrun : generateFlowFromScript J provider = ⟨.ok p2, [2000, 4000], 3⟩ := by
              rw [hstep1, genLoop_succ_ok J provider 0 2 8000 [4000, 2000] p2 h2]
              rfl
            refine ⟨by simp [hrun], by right; right; rw [hrun], ?_, ?_, ?_, ?_, ?_⟩
            · intro _
              exact ⟨m0, rfl, hb0⟩
            · intro _
              exact ⟨m1, rfl, hb1⟩
            · intro m hm hf
              injection hm with h'
              subst h'
              rw [hb0] at hf
              simp at hf
            · intro m₀ m₁ _ _ hm1 hb1f
              injection hm1 with h'
              subst h'
              rw [hb1] at hb1f
              simp at hb1f
            · intro m₀ m₁ _ _ _ _
              constructor
              · intro p hp
                injection hp with h'
                subst h'
                refine ⟨by rw [hrun], by rw [hrun], ?_⟩
                rw [hrun]
                simp
              · intro m₂ hm2
                simp at hm2
          | error m2 =>
            have hcond2 : ¬ ((messageIncludes429 m2 && decide (2 + 1 < maxRetries)) = true) := by
              simp [maxRetries]
            have hrun : generateFlowFromScript J provider
                = ⟨.error (finalErrorMessage J m2), [2000, 4000], 3⟩ := by
              rw [hstep1, genLoop_succ_error J provider 0 2 8000 [4000, 2000] m2 h2,
                if_neg hcond2]
              rfl
            refine ⟨by simp [hrun], by right; right; rw [hrun], ?_, ?_, ?_, ?_, ?_⟩
            · intro _
              exact ⟨m0, rfl, hb0⟩
            · intro _
              exact ⟨m1, rfl, hb1⟩
            · intro m hm hf
              injection hm with h'
              subst h'
              rw [hb0] at hf
              simp at hf
            · intro m₀ m₁ _ _ hm1 hb1f
              injection hm1 with h'
              subst h'
              rw [hb1] at hb1f
              simp at hb1f
            · intro m₀ m₁ _ _ _ _
              constructor
              · intro p hp
                simp at hp
              · intro m₂' hm2
                injection hm2 with h'
                subst h'
                exact hrun

/-- Witness for `generateFlow_retry_policy`: end-to-end scenario 3 — the
provider rate-limits attempts 1 and 2 and succeeds on attempt 3; the run
returns the successful payload with inserted delays [2000, 4000]. -/
theorem generateFlow_retry_policy_witness :
    (generateFlowFromScript (fun _ => none) rateLimitProvider).result = .ok goodResponse ∧
    (generateFlowFromScript (fun _ => none) rateLimitProvider).delays = [2000, 4000] ∧
    2000 + 4000 ≤ (generateFlowFromScript (fun _ => none) rateLimitProvider).delays.sum :=
  ((generateFlow_retry_policy (fun _ => none) rateLimitProvider).2.2.2.2.2.2
      "Error 429: rate limited" "HTTP 429 again" rfl (by decide) rfl (by decide)).1
    goodResponse rfl
